import Mathlib

/-!
Verification of the FeedContentDatabase mutation pipeline and read path
(components/feed/core/feed_content_database.cc).

The pipeline applies a batch of content operations to an asynchronous
key-value store one at a time, halting on the first failure, and reports a
single boolean result through a confirmation callback.  We embed the
control flow as total functions that record, for each request, the list of
store calls issued, the resulting store contents, and every invocation of
the caller's callback.  Asynchronous store completions are modelled by a
success oracle `Nat → Bool` giving the reported outcome of the i-th store
call dispatched for a batch.
-/

namespace FeedContentDb

/-- Modelled from the spec: a StoreRecord persisted in the store — the
`ContentStorageProto` message (its .proto definition is outside the sample),
a (key, opaque content bytes) pair. -/
structure ContentStorageProto where
  key : String
  content_data : String
deriving DecidableEq

/-- The store contents: the persisted records.  Keys are unique within the
store; record order is not semantically meaningful. -/
abbrev StoreState := List ContentStorageProto

/-- Modelled from the spec: the type tags of `ContentOperation`
(components/feed/core/feed_content_operation.h is not in the sample).  The
spec's closed variant set is {Upsert, Delete, DeleteByPrefix, DeleteAll};
the dispatcher's defensive `default` branch corresponds to any tag outside
these four, so tags are embedded as natural numbers.  The concrete values
are arbitrary but distinct. -/
def CONTENT_DELETE : Nat := 0

/-- Modelled from the spec: the delete-by-prefix type tag. -/
def CONTENT_DELETE_BY_PREFIX : Nat := 1

/-- Modelled from the spec: the upsert type tag. -/
def CONTENT_UPSERT : Nat := 2

/-- Modelled from the spec: the delete-all type tag. -/
def CONTENT_DELETE_ALL : Nat := 3

/-- Modelled from the spec: a `ContentOperation` — an immutable tagged
record with a type tag and string payloads (key, value, and the prefix used
by delete-by-prefix, here named `pfx`).  Payload fields not used by a given
variant are ignored by the dispatcher. -/
structure ContentOperation where
  type : Nat
  key : String
  value : String
  pfx : String
deriving DecidableEq

/-- Modelled from the spec: a `ContentMutation` is an ordered batch of
operations consumed strictly from the front (`TakeFristOperation` pops the
front element), embedded as a list. -/
abbrev ContentMutation := List ContentOperation

/-- A call issued to the underlying `ProtoDatabase` store, as dispatched by
the code: `UpdateEntries(entries_to_save, keys_to_remove)`,
`UpdateEntriesWithRemoveFilter(entries_to_save, delete_key_filter)`,
`LoadEntriesWithFilter(filter)` and `LoadKeys`. -/
inductive StoreCall where
  | updateEntries (entries_to_save : List (String × ContentStorageProto))
      (keys_to_remove : List String)
  | updateEntriesWithRemoveFilter
      (entries_to_save : List (String × ContentStorageProto))
      (delete_key_filter : String → Bool)
  | loadEntriesWithFilter (filt : String → Bool)
  | loadKeys

/-- Modelled from the spec: the external store's effect on its records for
each mutation call.  `BulkUpdate` removes the keys in the delete set (and
any key being re-saved, keys being unique) and adds the saved entries;
the remove-filter variant deletes every record whose key satisfies the
predicate; loads do not change the store. -/
def applyStoreCall : StoreCall → StoreState → StoreState
  | .updateEntries toSave toRemove, st =>
      (st.filter (fun e =>
        !(toRemove.contains e.key) && !(toSave.any (fun s => s.1 == e.key))))
        ++ toSave.map (fun s => s.2)
  | .updateEntriesWithRemoveFilter toSave filt, st =>
      (st.filter (fun e => !(filt e.key))) ++ toSave.map (fun s => s.2)
  | .loadEntriesWithFilter _, st => st
  | .loadKeys, st => st

/-- `DatabaseKeyFilter(key_set, key)`: membership of `key` in the key set.
The C++ `std::unordered_set` built from the caller's key list is embedded
by that list, used only through membership. -/
def DatabaseKeyFilter (key_set : List String) (key : String) : Bool :=
  key_set.contains key

/-- `DatabasePrefixFilter(key_prefix, key)`:
`base::StartsWith(key, key_prefix, CompareCase::SENSITIVE)` — a
case-sensitive byte-wise check that `key` begins with the given prefix,
embedded as a prefix test on the character data (a string is a byte-wise
prefix of another under UTF-8 exactly when it is a character-wise one). -/
def DatabasePrefixFilter (p : String) (key : String) : Bool :=
  p.data.isPrefixOf key.data

/-- Modelled from the spec: the initialization states of the store
(`leveldb_proto::Enums::InitStatus` is outside the sample): NotInitialized,
Ready (`kOK`) and Failed (`kError`). -/
inductive InitStatus where
  | kNotInitialized
  | kOK
  | kError
deriving DecidableEq

/-- The state of a `FeedContentDatabase`: the recorded initialization
status and the contents of the underlying store. -/
structure FeedContentDatabase where
  database_status : InitStatus
  store : StoreState

/-- `IsInitialized()`: true iff the recorded status is `kOK`. -/
def IsInitialized (db : FeedContentDatabase) : Bool :=
  db.database_status == InitStatus.kOK

/-- `OnDatabaseInitialized(status)`: records the store's reported
initialization status (the one transition out of `kNotInitialized`). -/
def OnDatabaseInitialized (db : FeedContentDatabase) (status : InitStatus) :
    FeedContentDatabase :=
  { db with database_status := status }

/-- The store call issued by `UpsertContent`: a single-entry
`UpdateEntries` saving a proto with the operation's key and value and an
empty delete list. -/
def UpsertContentCall (op : ContentOperation) : StoreCall :=
  .updateEntries [(op.key, ⟨op.key, op.value⟩)] []

/-- The store call issued by `DeleteContent`: an `UpdateEntries` with an
empty save list and the operation's key as the single key to delete. -/
def DeleteContentCall (op : ContentOperation) : StoreCall :=
  .updateEntries [] [op.key]

/-- The store call issued by `DeleteContentByPrefix`: an
`UpdateEntriesWithRemoveFilter` with an empty save list and
`DatabasePrefixFilter` bound to the operation's prefix. -/
def DeleteContentByPrefixCall (op : ContentOperation) : StoreCall :=
  .updateEntriesWithRemoveFilter [] (DatabasePrefixFilter op.pfx)

/-- The store call issued by `DeleteAllContent`: an
`UpdateEntriesWithRemoveFilter` with an empty save list and
`DatabasePrefixFilter` bound to the empty string (`key_prefix = ""`);
the operation's payload is not consulted. -/
def DeleteAllContentCall (_op : ContentOperation) : StoreCall :=
  .updateEntriesWithRemoveFilter [] (DatabasePrefixFilter "")

/-- The `switch (operation.type())` of `PerformNextOperation`: the store
call dispatched for a recognized operation, or `none` for the defensive
`default` branch (unsupported type tag). -/
def operationStoreCall (op : ContentOperation) : Option StoreCall :=
  if op.type == CONTENT_DELETE then some (DeleteContentCall op)
  else if op.type == CONTENT_DELETE_BY_PREFIX then
    some (DeleteContentByPrefixCall op)
  else if op.type == CONTENT_UPSERT then some (UpsertContentCall op)
  else if op.type == CONTENT_DELETE_ALL then some (DeleteAllContentCall op)
  else none

/-- The observable outcome of one `CommitContentMutation` request: the
store calls issued (in dispatch order), the final store contents, and the
arguments of every invocation of the confirmation callback (in order). -/
structure CommitRun where
  storeCalls : List StoreCall
  store : StoreState
  callbackRuns : List Bool

/-- `PerformNextOperation` together with its continuation
`OnOperationCommitted`: pop the front operation, dispatch its store call
(the `default` branch instead posts the callback with `false` and makes no
store call), and on completion — whose reported success is `oracle i` for
the i-th dispatch — halt with `callback(false)` on failure, run
`callback(true)` when the batch is exhausted, and otherwise recurse on the
remaining operations.  The `[]` case is unreachable from
`CommitContentMutation` (the code DCHECKs `!content_mutation->Empty()`). -/
def PerformNextOperation (oracle : Nat → Bool) :
    Nat → StoreState → ContentMutation → CommitRun
  | _, st, [] => ⟨[], st, []⟩
  | i, st, op :: rest =>
    match operationStoreCall op with
    | none => ⟨[], st, [false]⟩
    | some call =>
      let ok := oracle i
      let st1 := if ok then applyStoreCall call st else st
      if !ok then ⟨[call], st1, [false]⟩
      else if rest.isEmpty then ⟨[call], st1, [true]⟩
      else
        let r := PerformNextOperation oracle (i + 1) st1 rest
        ⟨call :: r.storeCalls, r.store, r.callbackRuns⟩

/-- `CommitContentMutation(content_mutation, callback)`: an empty batch
posts `callback(true)` without touching the store; otherwise the batch is
handed to `PerformNextOperation`. -/
def CommitContentMutation (oracle : Nat → Bool) (db : FeedContentDatabase)
    (content_mutation : ContentMutation) : CommitRun :=
  if content_mutation.isEmpty then ⟨[], db.store, [true]⟩
  else PerformNextOperation oracle 0 db.store content_mutation

/-- The net store effect of committing a batch whose operations all
succeed: each recognized operation's store call applied in order
(unrecognized tags make no store call). -/
def applyOperations (ops : ContentMutation) (st : StoreState) : StoreState :=
  ops.foldl (fun s op =>
    match operationStoreCall op with
    | some c => applyStoreCall c s
    | none => s) st

/-- Modelled from the spec: the external store's filtered bulk load
`LoadWhere(predicate)` returns the records whose key satisfies the
predicate, together with a success flag (threaded separately as the
store's reported outcome). -/
def LoadWhere (filt : String → Bool) (st : StoreState) :
    List ContentStorageProto :=
  st.filter (fun e => filt e.key)

/-- `OnLoadEntriesForLoadContent(success, content)`: converts every
delivered record to a (key, content_data) pair — unconditionally, whatever
the success flag — and runs the callback with the store's flag and the
converted list. -/
def OnLoadEntriesForLoadContent (success : Bool)
    (content : List ContentStorageProto) : Bool × List (String × String) :=
  (success, content.map (fun p => (p.key, p.content_data)))

/-- `OnLoadKeysForLoadAllContentKeys(success, keys)`: runs the callback
with the store's flag and the delivered keys. -/
def OnLoadKeysForLoadAllContentKeys (success : Bool) (keys : List String) :
    Bool × List String :=
  (success, keys)

/-- The observable outcome of one read request: the store calls issued and
the (success, records) pair handed to the caller's callback. -/
structure LoadRun where
  storeCalls : List StoreCall
  result : Bool × List (String × String)

/-- The observable outcome of one `LoadAllContentKeys` request. -/
structure KeysRun where
  storeCalls : List StoreCall
  result : Bool × List String

/-- `LoadContent(keys, callback)`: builds a key set from the caller's key
list, issues `LoadEntriesWithFilter` with `DatabaseKeyFilter` bound to that
set, and hands the store's completion (`ok` being its reported success) to
`OnLoadEntriesForLoadContent`.  The initialization status is not
consulted. -/
def LoadContent (db : FeedContentDatabase) (ok : Bool)
    (keys : List String) : LoadRun :=
  let filt := DatabaseKeyFilter keys
  ⟨[.loadEntriesWithFilter filt],
    OnLoadEntriesForLoadContent ok (LoadWhere filt db.store)⟩

/-- `LoadContentByPrefix(prefix, callback)`: issues
`LoadEntriesWithFilter` with `DatabasePrefixFilter` bound to the given
prefix and hands the completion to `OnLoadEntriesForLoadContent`.  The
initialization status is not consulted. -/
def LoadContentByPrefix (db : FeedContentDatabase) (ok : Bool)
    (p : String) : LoadRun :=
  let filt := DatabasePrefixFilter p
  ⟨[.loadEntriesWithFilter filt],
    OnLoadEntriesForLoadContent ok (LoadWhere filt db.store)⟩

/-- `LoadAllContentKeys(callback)`: issues `LoadKeys` and hands the
completion to `OnLoadKeysForLoadAllContentKeys`. -/
def LoadAllContentKeys (db : FeedContentDatabase) (ok : Bool) : KeysRun :=
  ⟨[.loadKeys], OnLoadKeysForLoadAllContentKeys ok (db.store.map (fun e => e.key))⟩

/-! Helper lemmas about the pipeline. -/

lemma length_filterMap_storeCall (ops : ContentMutation)
    (h : ∀ op ∈ ops, (operationStoreCall op).isSome = true) :
    (ops.filterMap operationStoreCall).length = ops.length := by
  induction ops with
  | nil => rfl
  | cons op rest ih =>
    obtain ⟨c, hc⟩ := Option.isSome_iff_exists.1 (h op (by simp))
    simp [List.filterMap_cons, hc,
      ih (fun o ho => h o (List.mem_cons_of_mem _ ho))]

lemma performNextOperation_cons_step (oracle : Nat → Bool) (i : Nat)
    (st : StoreState) (op : ContentOperation) (rest : ContentMutation)
    (c : StoreCall) (hc : operationStoreCall op = some c)
    (hok : oracle i = true) (hne : rest ≠ []) :
    PerformNextOperation oracle i st (op :: rest) =
      ⟨c :: (PerformNextOperation oracle (i + 1) (applyStoreCall c st) rest).storeCalls,
       (PerformNextOperation oracle (i + 1) (applyStoreCall c st) rest).store,
       (PerformNextOperation oracle (i + 1) (applyStoreCall c st) rest).callbackRuns⟩ := by
  cases rest with
  | nil => exact absurd rfl hne
  | cons b bs => simp [PerformNextOperation, hc, hok]

lemma performNextOperation_all_ok (oracle : Nat → Bool) :
    ∀ (ops : ContentMutation) (i : Nat) (st : StoreState), ops ≠ [] →
      (∀ op ∈ ops, (operationStoreCall op).isSome = true) →
      (∀ j < ops.length, oracle (i + j) = true) →
      PerformNextOperation oracle i st ops =
        ⟨ops.filterMap operationStoreCall, applyOperations ops st, [true]⟩ := by
  intro ops
  induction ops with
  | nil => intro _ _ h; exact absurd rfl h
  | cons op rest ih =>
    intro i st _ hrec hok
    obtain ⟨c, hc⟩ := Option.isSome_iff_exists.1 (hrec op (by simp))
    have hi : oracle i = true := by simpa using hok 0 (by simp)
    cases rest with
    | nil =>
      simp [PerformNextOperation, hc, hi, applyOperations, List.filterMap_cons]
    | cons b bs =>
      have hrec' : ∀ o ∈ b :: bs, (operationStoreCall o).isSome = true :=
        fun o ho => hrec o (List.mem_cons_of_mem _ ho)
      have hok' : ∀ j < (b :: bs).length, oracle (i + 1 + j) = true := by
        intro j hj
        have h2 := hok (j + 1) (by simpa using Nat.succ_lt_succ hj)
        rw [show i + 1 + j = i + (j + 1) by omega]
        exact h2
      have hrest := ih (i + 1) (applyStoreCall c st) (by simp) hrec' hok'
      rw [performNextOperation_cons_step oracle i st op (b :: bs) c hc hi
        (by simp), hrest]
      simp [List.filterMap_cons, hc, applyOperations, List.foldl_cons]

lemma performNextOperation_first_fail (oracle : Nat → Bool) :
    ∀ (ops : ContentMutation) (k i : Nat) (st : StoreState),
      (∀ op ∈ ops, (operationStoreCall op).isSome = true) →
      k < ops.length → oracle (i + k) = false →
      (∀ j < k, oracle (i + j) = true) →
      PerformNextOperation oracle i st ops =
        ⟨(ops.take (k + 1)).filterMap operationStoreCall,
         applyOperations (ops.take k) st, [false]⟩ := by
  intro ops
  induction ops with
  | nil => intro k _ _ _ hk; exact absurd hk (by simp)
  | cons op rest ih =>
    intro k i st hrec hk hfail hpre
    obtain ⟨c, hc⟩ := Option.isSome_iff_exists.1 (hrec op (by simp))
    cases k with
    | zero =>
      have hi : oracle i = false := by simpa using hfail
      simp [PerformNextOperation, hc, hi, applyOperations, List.filterMap_cons]
    | succ k' =>
      have hi : oracle i = true := by simpa using hpre 0 (Nat.succ_pos _)
      cases rest with
      | nil => simp at hk
      | cons b bs =>
        have hrec' : ∀ o ∈ b :: bs, (operationStoreCall o).isSome = true :=
          fun o ho => hrec o (List.mem_cons_of_mem _ ho)
        have hk' : k' < (b :: bs).length := by simpa using Nat.lt_of_succ_lt_succ hk
        have hfail' : oracle (i + 1 + k') = false := by
          rw [show i + 1 + k' = i + (k' + 1) by omega]; exact hfail
        have hpre' : ∀ j < k', oracle (i + 1 + j) = true := by
          intro j hj
          rw [show i + 1 + j = i + (j + 1) by omega]
          exact hpre (j + 1) (Nat.succ_lt_succ hj)
        have hrest := ih k' (i + 1) (applyStoreCall c st) hrec' hk' hfail' hpre'
        rw [performNextOperation_cons_step oracle i st op (b :: bs) c hc hi
          (by simp), hrest]
        simp [List.filterMap_cons, hc, applyOperations, List.foldl_cons,
          List.take_succ_cons]

lemma performNextOperation_single_callback (oracle : Nat → Bool) :
    ∀ (ops : ContentMutation) (i : Nat) (st : StoreState), ops ≠ [] →
      (PerformNextOperation oracle i st ops).callbackRuns.length = 1 := by
  intro ops
  induction ops with
  | nil => intro _ _ h; exact absurd rfl h
  | cons op rest ih =>
    intro i st _
    cases hc : operationStoreCall op with
    | none => simp [PerformNextOperation, hc]
    | some c =>
      cases hok : oracle i with
      | false => simp [PerformNextOperation, hc, hok]
      | true =>
        cases rest with
        | nil => simp [PerformNextOperation, hc, hok]
        | cons b bs =>
          rw [performNextOperation_cons_step oracle i st op (b :: bs) c hc hok
            (by simp)]
          exact ih (i + 1) (applyStoreCall c st) (by simp)

/-! Claim theorems. -/

/-- C1: for every non-empty mutation batch whose operations are all
recognized and in which every store operation succeeds (the oracle reports
success at every index used by the batch), `CommitContentMutation`
dispatches exactly one store call per operation, in the order the
operations appear in the batch (dispatch is strictly sequential: the
recursion dispatches operation N+1 only inside the completion of operation
N), applies them all to the store in that order, and finally invokes the
confirmation callback exactly once, with `true`. -/
theorem commit_success_applies_all_in_order (oracle : Nat → Bool)
    (db : FeedContentDatabase) (ops : ContentMutation)
    (hne : ops ≠ [])
    (hrec : ops.all (fun op => (operationStoreCall op).isSome) = true)
    (hok : (List.range ops.length).all oracle = true) :
    CommitContentMutation oracle db ops =
      ⟨ops.filterMap operationStoreCall, applyOperations ops db.store,
       [true]⟩ ∧
    (CommitContentMutation oracle db ops).storeCalls.length = ops.length := by
  have hrec' : ∀ op ∈ ops, (operationStoreCall op).isSome = true :=
    List.all_eq_true.1 hrec
  have hok' : ∀ j < ops.length, oracle (0 + j) = true := by
    intro j hj
    simpa using List.all_eq_true.1 hok j (List.mem_range.2 hj)
  have hmain := performNextOperation_all_ok oracle ops 0 db.store hne hrec' hok'
  have hcommit : CommitContentMutation oracle db ops =
      ⟨ops.filterMap operationStoreCall, applyOperations ops db.store,
       [true]⟩ := by
    cases ops with
    | nil => exact absurd rfl hne
    | cons op rest => simpa [CommitContentMutation] using hmain
  exact ⟨hcommit, by rw [hcommit]; exact length_filterMap_storeCall ops hrec'⟩

/-- Witness for C1 at a concrete two-operation batch (an upsert followed
by a delete) against an empty store with an all-success oracle. -/
theorem commit_success_applies_all_in_order_witness :
    (([⟨CONTENT_UPSERT, "a", "1", ""⟩, ⟨CONTENT_DELETE, "b", "", ""⟩] :
        ContentMutation) ≠ []) ∧
    (([⟨CONTENT_UPSERT, "a", "1", ""⟩, ⟨CONTENT_DELETE, "b", "", ""⟩] :
        ContentMutation).all (fun op => (operationStoreCall op).isSome)
      = true) ∧
    ((List.range ([⟨CONTENT_UPSERT, "a", "1", ""⟩,
        ⟨CONTENT_DELETE, "b", "", ""⟩] : ContentMutation).length).all
        (fun _ => true) = true) ∧
    (CommitContentMutation (fun _ => true) ⟨InitStatus.kOK, []⟩
        [⟨CONTENT_UPSERT, "a", "1", ""⟩, ⟨CONTENT_DELETE, "b", "", ""⟩] =
      ⟨([⟨CONTENT_UPSERT, "a", "1", ""⟩, ⟨CONTENT_DELETE, "b", "", ""⟩] :
          ContentMutation).filterMap operationStoreCall,
       applyOperations
         [⟨CONTENT_UPSERT, "a", "1", ""⟩, ⟨CONTENT_DELETE, "b", "", ""⟩] [],
       [true]⟩ ∧
     (CommitContentMutation (fun _ => true) ⟨InitStatus.kOK, []⟩
        [⟨CONTENT_UPSERT, "a", "1", ""⟩,
         ⟨CONTENT_DELETE, "b", "", ""⟩]).storeCalls.length =
      ([⟨CONTENT_UPSERT, "a", "1", ""⟩, ⟨CONTENT_DELETE, "b", "", ""⟩] :
          ContentMutation).length) :=
  ⟨by decide, by decide, by decide,
   commit_success_applies_all_in_order (fun _ => true) ⟨InitStatus.kOK, []⟩
     [⟨CONTENT_UPSERT, "a", "1", ""⟩, ⟨CONTENT_DELETE, "b", "", ""⟩]
     (by decide) (by decide) (by decide)⟩

/-- C2: for every batch of recognized operations in which operation k is
the first whose store call fails, the operations after position k are
never dispatched (exactly the first k+1 store calls are issued), the
confirmation callback is invoked once with `false`, and the final store
contents are the first k operations applied in order — the operations
committed before the failure are not rolled back. -/
theorem commit_first_failure_halts (oracle : Nat → Bool)
    (db : FeedContentDatabase) (ops : ContentMutation) (k : Nat)
    (hrec : ops.all (fun op => (operationStoreCall op).isSome) = true)
    (hk : k < ops.length)
    (hfail : oracle k = false)
    (hpre : (List.range k).all oracle = true) :
    CommitContentMutation oracle db ops =
      ⟨(ops.take (k + 1)).filterMap operationStoreCall,
       applyOperations (ops.take k) db.store, [false]⟩ := by
  have hrec' : ∀ op ∈ ops, (operationStoreCall op).isSome = true :=
    List.all_eq_true.1 hrec
  have hfail' : oracle (0 + k) = false := by simpa using hfail
  have hpre' : ∀ j < k, oracle (0 + j) = true := by
    intro j hj
    simpa using List.all_eq_true.1 hpre j (List.mem_range.2 hj)
  have hmain := performNextOperation_first_fail oracle ops k 0 db.store hrec'
    hk hfail' hpre'
  cases ops with
  | nil => simp at hk
  | cons op rest => simpa [CommitContentMutation] using hmain

/-- Witness for C2 at a concrete three-upsert batch whose second store
call (index 1) fails. -/
theorem commit_first_failure_halts_witness :
    (([⟨CONTENT_UPSERT, "a", "1", ""⟩, ⟨CONTENT_UPSERT, "b", "2", ""⟩,
        ⟨CONTENT_UPSERT, "c", "3", ""⟩] : ContentMutation).all
        (fun op => (operationStoreCall op).isSome) = true) ∧
    (1 < ([⟨CONTENT_UPSERT, "a", "1", ""⟩, ⟨CONTENT_UPSERT, "b", "2", ""⟩,
        ⟨CONTENT_UPSERT, "c", "3", ""⟩] : ContentMutation).length) ∧
    ((fun i => i != 1) 1 = false) ∧
    ((List.range 1).all (fun i => i != 1) = true) ∧
    (CommitContentMutation (fun i => i != 1) ⟨InitStatus.kOK, []⟩
        [⟨CONTENT_UPSERT, "a", "1", ""⟩, ⟨CONTENT_UPSERT, "b", "2", ""⟩,
         ⟨CONTENT_UPSERT, "c", "3", ""⟩] =
      ⟨(([⟨CONTENT_UPSERT, "a", "1", ""⟩, ⟨CONTENT_UPSERT, "b", "2", ""⟩,
          ⟨CONTENT_UPSERT, "c", "3", ""⟩] : ContentMutation).take 2).filterMap
          operationStoreCall,
       applyOperations
         (([⟨CONTENT_UPSERT, "a", "1", ""⟩, ⟨CONTENT_UPSERT, "b", "2", ""⟩,
            ⟨CONTENT_UPSERT, "c", "3", ""⟩] : ContentMutation).take 1) [],
       [false]⟩) :=
  ⟨by decide, by decide, by decide, by decide,
   commit_first_failure_halts (fun i => i != 1) ⟨InitStatus.kOK, []⟩
     [⟨CONTENT_UPSERT, "a", "1", ""⟩, ⟨CONTENT_UPSERT, "b", "2", ""⟩,
      ⟨CONTENT_UPSERT, "c", "3", ""⟩] 1
     (by decide) (by decide) (by decide) (by decide)⟩

/-- C3: `CommitContentMutation` on an empty batch schedules the
confirmation callback with `true`, issues no store call, and leaves the
store untouched. -/
theorem commit_empty_batch_reports_success (oracle : Nat → Bool)
    (db : FeedContentDatabase) :
    CommitContentMutation oracle db [] = ⟨[], db.store, [true]⟩ := rfl

/-- C4: on every call to `CommitContentMutation` — whatever the batch, the
store contents and the outcomes the store reports — the confirmation
callback is invoked exactly once: exactly one of the terminal paths
(empty-batch success, first failure, all-committed success,
unsupported-operation failure) runs it. -/
theorem commit_callback_invoked_exactly_once (oracle : Nat → Bool)
    (db : FeedContentDatabase) (ops : ContentMutation) :
    (CommitContentMutation oracle db ops).callbackRuns.length = 1 := by
  cases ops with
  | nil => rfl
  | cons op rest =>
    have h := performNextOperation_single_callback oracle (op :: rest) 0
      db.store (by simp)
    simpa [CommitContentMutation] using h

/-- C8: an operation whose type tag is none of the four recognized
variants hits the dispatcher's default branch: no store call is made for
it (nor for anything after it), and the confirmation callback is scheduled
once with `false` with the store left untouched. -/
theorem unrecognized_type_tag_fails_immediately (oracle : Nat → Bool)
    (i : Nat) (st : StoreState) (op : ContentOperation)
    (rest : ContentMutation)
    (h1 : op.type ≠ CONTENT_DELETE)
    (h2 : op.type ≠ CONTENT_DELETE_BY_PREFIX)
    (h3 : op.type ≠ CONTENT_UPSERT)
    (h4 : op.type ≠ CONTENT_DELETE_ALL) :
    operationStoreCall op = none ∧
    PerformNextOperation oracle i st (op :: rest) = ⟨[], st, [false]⟩ := by
  have hnone : operationStoreCall op = none := by
    simp only [operationStoreCall, beq_iff_eq]
    rw [if_neg h1, if_neg h2, if_neg h3, if_neg h4]
  exact ⟨hnone, by simp [PerformNextOperation, hnone]⟩

/-- Witness for C8 at a concrete operation with the unrecognized type
tag 99. -/
theorem unrecognized_type_tag_fails_immediately_witness :
    ((99 : Nat) ≠ CONTENT_DELETE) ∧ ((99 : Nat) ≠ CONTENT_DELETE_BY_PREFIX) ∧
    ((99 : Nat) ≠ CONTENT_UPSERT) ∧ ((99 : Nat) ≠ CONTENT_DELETE_ALL) ∧
    (operationStoreCall ⟨99, "x", "y", "z"⟩ = none ∧
     PerformNextOperation (fun _ => true) 0 [⟨"a", "1"⟩]
        [⟨99, "x", "y", "z"⟩, ⟨CONTENT_UPSERT, "b", "2", ""⟩] =
      ⟨[], [⟨"a", "1"⟩], [false]⟩) :=
  ⟨by decide, by decide, by decide, by decide,
   unrecognized_type_tag_fails_immediately (fun _ => true) 0 [⟨"a", "1"⟩]
     ⟨99, "x", "y", "z"⟩ [⟨CONTENT_UPSERT, "b", "2", ""⟩]
     (by decide) (by decide) (by decide) (by decide)⟩

/-- C5: `DeleteAllContent` issues exactly the same store call as
`DeleteContentByPrefix` on an operation carrying the empty prefix — the
bulk delete with `DatabasePrefixFilter ""`, a predicate accepting every
key — so committing a delete-all batch and committing the corresponding
empty-prefix delete-by-prefix batch are indistinguishable, the store is
left empty, and `LoadAllContentKeys` afterwards returns the empty list. -/
theorem delete_all_equals_delete_by_empty_prefix (oracle : Nat → Bool)
    (db : FeedContentDatabase) (a b : ContentOperation)
    (status : InitStatus)
    (ha : a.type = CONTENT_DELETE_ALL)
    (hb : b.type = CONTENT_DELETE_BY_PREFIX)
    (hb2 : b.pfx = "") :
    DeleteAllContentCall a = DeleteContentByPrefixCall b ∧
    CommitContentMutation oracle db [a] = CommitContentMutation oracle db [b] ∧
    applyStoreCall (DeleteAllContentCall a) db.store = [] ∧
    (LoadAllContentKeys
        ⟨status, applyStoreCall (DeleteAllContentCall a) db.store⟩
        true).result = (true, []) := by
  have hcall : DeleteAllContentCall a = DeleteContentByPrefixCall b := by
    simp [DeleteAllContentCall, DeleteContentByPrefixCall, hb2]
  have hA : operationStoreCall a = some (DeleteAllContentCall a) := by
    simp [operationStoreCall, ha, CONTENT_DELETE, CONTENT_DELETE_BY_PREFIX,
      CONTENT_UPSERT, CONTENT_DELETE_ALL]
  have hB : operationStoreCall b = some (DeleteContentByPrefixCall b) := by
    simp [operationStoreCall, hb, CONTENT_DELETE, CONTENT_DELETE_BY_PREFIX,
      CONTENT_UPSERT, CONTENT_DELETE_ALL]
  have hempty : applyStoreCall (DeleteAllContentCall a) db.store = [] := by
    simp [DeleteAllContentCall, applyStoreCall, DatabasePrefixFilter,
      List.isPrefixOf]
  refine ⟨hcall, ?_, hempty, ?_⟩
  · simp [CommitContentMutation, PerformNextOperation, hA, hB, hcall]
  · rw [hempty]
    simp [LoadAllContentKeys, OnLoadKeysForLoadAllContentKeys]

/-- Witness for C5 at a concrete delete-all operation and a concrete
empty-prefix delete-by-prefix operation over a two-record store. -/
theorem delete_all_equals_delete_by_empty_prefix_witness :
    ((⟨CONTENT_DELETE_ALL, "", "", ""⟩ : ContentOperation).type
        = CONTENT_DELETE_ALL) ∧
    ((⟨CONTENT_DELETE_BY_PREFIX, "", "", ""⟩ : ContentOperation).type
        = CONTENT_DELETE_BY_PREFIX) ∧
    ((⟨CONTENT_DELETE_BY_PREFIX, "", "", ""⟩ : ContentOperation).pfx = "") ∧
    (DeleteAllContentCall ⟨CONTENT_DELETE_ALL, "", "", ""⟩ =
       DeleteContentByPrefixCall ⟨CONTENT_DELETE_BY_PREFIX, "", "", ""⟩ ∧
     CommitContentMutation (fun _ => true)
        ⟨InitStatus.kOK, [⟨"a", "1"⟩, ⟨"b", "2"⟩]⟩
        [⟨CONTENT_DELETE_ALL, "", "", ""⟩] =
       CommitContentMutation (fun _ => true)
        ⟨InitStatus.kOK, [⟨"a", "1"⟩, ⟨"b", "2"⟩]⟩
        [⟨CONTENT_DELETE_BY_PREFIX, "", "", ""⟩] ∧
     applyStoreCall (DeleteAllContentCall ⟨CONTENT_DELETE_ALL, "", "", ""⟩)
        (⟨InitStatus.kOK, [⟨"a", "1"⟩, ⟨"b", "2"⟩]⟩ :
          FeedContentDatabase).store = [] ∧
     (LoadAllContentKeys
        ⟨InitStatus.kOK,
         applyStoreCall (DeleteAllContentCall ⟨CONTENT_DELETE_ALL, "", "", ""⟩)
           (⟨InitStatus.kOK, [⟨"a", "1"⟩, ⟨"b", "2"⟩]⟩ :
             FeedContentDatabase).store⟩
        true).result = (true, [])) :=
  ⟨rfl, rfl, rfl,
   delete_all_equals_delete_by_empty_prefix (fun _ => true)
     ⟨InitStatus.kOK, [⟨"a", "1"⟩, ⟨"b", "2"⟩]⟩
     ⟨CONTENT_DELETE_ALL, "", "", ""⟩ ⟨CONTENT_DELETE_BY_PREFIX, "", "", ""⟩
     InitStatus.kOK rfl rfl rfl⟩

/-- C6: `DatabasePrefixFilter p key` is true exactly when the leading
characters of `key` equal `p` (so the empty prefix accepts every key);
the read-by-prefix path and the delete-by-prefix call both bind exactly
`DatabasePrefixFilter` to their prefix, the records a prefix load returns
are the ones whose key satisfies the predicate, the records the bulk
delete keeps are the ones whose key refutes it, and the two parts split
the store exactly — so the keys readable by a prefix are the keys
deletable by it. -/
theorem prefix_predicate_shared_by_read_and_delete (p k : String)
    (db : FeedContentDatabase) (ok : Bool) (st : StoreState)
    (op : ContentOperation) :
    (DatabasePrefixFilter p k = true ↔
      List.take p.data.length k.data = p.data) ∧
    DatabasePrefixFilter "" k = true ∧
    (LoadContentByPrefix db ok p).storeCalls =
      [StoreCall.loadEntriesWithFilter (DatabasePrefixFilter p)] ∧
    DeleteContentByPrefixCall op =
      StoreCall.updateEntriesWithRemoveFilter []
        (DatabasePrefixFilter (ContentOperation.pfx op)) ∧
    LoadWhere (DatabasePrefixFilter p) st =
      st.filter (fun e => DatabasePrefixFilter p e.key) ∧
    applyStoreCall
        (StoreCall.updateEntriesWithRemoveFilter [] (DatabasePrefixFilter p))
        st =
      st.filter (fun e => !(DatabasePrefixFilter p e.key)) ∧
    (LoadWhere (DatabasePrefixFilter p) st).length +
      (applyStoreCall
        (StoreCall.updateEntriesWithRemoveFilter [] (DatabasePrefixFilter p))
        st).length = st.length := by
  refine ⟨?_, ?_, rfl, rfl, rfl, ?_, ?_⟩
  · constructor
    · intro h
      have hpre : p.data <+: k.data := List.isPrefixOf_iff_prefix.1 h
      exact (List.prefix_iff_eq_take.1 hpre).symm
    · intro h
      exact List.isPrefixOf_iff_prefix.2 (List.prefix_iff_eq_take.2 h.symm)
  · simp [DatabasePrefixFilter, List.isPrefixOf]
  · simp [applyStoreCall]
  · simp only [LoadWhere, applyStoreCall, List.map_nil, List.append_nil]
    exact (List.length_eq_length_filter_add
      (fun e : ContentStorageProto => DatabasePrefixFilter p e.key)).symm

/-- C7 counterexample: `OnLoadEntriesForLoadContent` run with the store's
failure flag and one delivered record hands that record to the caller —
the handler does not clear the result collection on failure. -/
theorem load_failure_passes_records_through :
    (OnLoadEntriesForLoadContent false [⟨"a", "1"⟩]).1 = false ∧
    (OnLoadEntriesForLoadContent false [⟨"a", "1"⟩]).2 ≠
      ([] : List (String × String)) := by
  constructor
  · rfl
  · intro h
    simp [OnLoadEntriesForLoadContent] at h

/-- C7 amended: `OnLoadEntriesForLoadContent` propagates the store's
success flag unchanged and converts every record the store delivered into
a (key, content_data) pair, whatever the flag; the result collection is
empty exactly when the store delivered no records — the emptiness of a
failed read's result is the store's responsibility, not the handler's. -/
theorem load_result_mirrors_store_delivery (success : Bool)
    (content : List ContentStorageProto) :
    (OnLoadEntriesForLoadContent success content).1 = success ∧
    (OnLoadEntriesForLoadContent success content).2.length =
      content.length ∧
    ((OnLoadEntriesForLoadContent success content).2 = [] ↔
      content = []) := by
  simp [OnLoadEntriesForLoadContent]

/-- C9 counterexample: a read and a write arriving while the
initialization state is still `kNotInitialized` are forwarded straight to
the store — the read issues its `LoadEntriesWithFilter` call and returns
the store's records, and a one-upsert commit issues its store call and
reports success — so such requests are neither queued until readiness nor
rejected with a definite failure. -/
theorem not_ready_request_forwarded_to_store :
    (LoadContent ⟨InitStatus.kNotInitialized, [⟨"a", "1"⟩]⟩ true
        ["a"]).storeCalls.length = 1 ∧
    (LoadContent ⟨InitStatus.kNotInitialized, [⟨"a", "1"⟩]⟩ true
        ["a"]).result = (true, [("a", "1")]) ∧
    (CommitContentMutation (fun _ => true)
        ⟨InitStatus.kNotInitialized, []⟩
        [⟨CONTENT_UPSERT, "a", "1", ""⟩]).storeCalls.length = 1 ∧
    (CommitContentMutation (fun _ => true)
        ⟨InitStatus.kNotInitialized, []⟩
        [⟨CONTENT_UPSERT, "a", "1", ""⟩]).callbackRuns = [true] := by
  refine ⟨rfl, ?_, rfl, rfl⟩
  simp [LoadContent, LoadWhere, OnLoadEntriesForLoadContent,
    DatabaseKeyFilter]

/-- C9 amended: `FeedContentDatabase` applies one deterministic policy
uniformly to reads and writes arriving before the store is ready — it
forwards them to the store unconditionally: none of `LoadContent`,
`LoadContentByPrefix`, `LoadAllContentKeys` or `CommitContentMutation`
consults the initialization status, so their behavior is identical in
every status, and a not-ready read still issues its store call. -/
theorem requests_ignore_initialization_status (s1 s2 : InitStatus)
    (store : StoreState) (ok : Bool) (keys : List String) (p : String)
    (oracle : Nat → Bool) (ops : ContentMutation) :
    LoadContent ⟨s1, store⟩ ok keys = LoadContent ⟨s2, store⟩ ok keys ∧
    LoadContentByPrefix ⟨s1, store⟩ ok p =
      LoadContentByPrefix ⟨s2, store⟩ ok p ∧
    LoadAllContentKeys ⟨s1, store⟩ ok = LoadAllContentKeys ⟨s2, store⟩ ok ∧
    CommitContentMutation oracle ⟨s1, store⟩ ops =
      CommitContentMutation oracle ⟨s2, store⟩ ops ∧
    (LoadContent ⟨InitStatus.kNotInitialized, store⟩ ok keys).storeCalls =
      [StoreCall.loadEntriesWithFilter (DatabaseKeyFilter keys)] :=
  ⟨rfl, rfl, rfl, rfl, rfl⟩

/-- C10: the outcome of `LoadContent` — the store call it issues and the
records it hands back — depends only on which distinct keys occur in the
caller's key list, because the list is collapsed into a key set and used
only through the membership test `DatabaseKeyFilter`; permuting the list
or duplicating keys in it changes nothing. -/
theorem load_content_depends_only_on_key_membership
    (db : FeedContentDatabase) (ok : Bool) (keys1 keys2 : List String)
    (h : (keys1.all (fun k => keys2.contains k) &&
          keys2.all (fun k => keys1.contains k)) = true) :
    LoadContent db ok keys1 = LoadContent db ok keys2 := by
  rw [Bool.and_eq_true] at h
  have h1 := List.all_eq_true.1 h.1
  have h2 := List.all_eq_true.1 h.2
  have hf : DatabaseKeyFilter keys1 = DatabaseKeyFilter keys2 := by
    funext k
    show keys1.elem k = keys2.elem k
    by_cases hk : k ∈ keys1
    · rw [List.elem_eq_true_of_mem hk]
      exact (h1 k hk).symm
    · have c1 : keys1.elem k = false := by
        cases hc : keys1.elem k
        · rfl
        · exact absurd (List.mem_of_elem_eq_true hc) hk
      have c2 : keys2.elem k = false := by
        cases hc : keys2.elem k
        · exact rfl
        · exact absurd
            (List.mem_of_elem_eq_true (h2 k (List.mem_of_elem_eq_true hc)))
            hk
      rw [c1, c2]
  simp [LoadContent, hf]

/-- Witness for C10: loading with the key list ["a", "b", "a"] (duplicate,
different order) equals loading with ["b", "a"] over a concrete store. -/
theorem load_content_depends_only_on_key_membership_witness :
    ((["a", "b", "a"] : List String).all
        (fun k => (["b", "a"] : List String).contains k) &&
     (["b", "a"] : List String).all
        (fun k => (["a", "b", "a"] : List String).contains k)) = true ∧
    LoadContent ⟨InitStatus.kOK, [⟨"a", "1"⟩, ⟨"c", "3"⟩]⟩ true
        ["a", "b", "a"] =
      LoadContent ⟨InitStatus.kOK, [⟨"a", "1"⟩, ⟨"c", "3"⟩]⟩ true
        ["b", "a"] :=
  ⟨by decide,
   load_content_depends_only_on_key_membership
     ⟨InitStatus.kOK, [⟨"a", "1"⟩, ⟨"c", "3"⟩]⟩ true
     ["a", "b", "a"] ["b", "a"] (by decide)⟩

end FeedContentDb
